import Mathlib

/-
  Verification development for the opentracing adapter of zipkin-cpp-opentracing
  (zipkin_opentracing/src/opentracing.cc), as a shallow embedding.

  Modelling conventions:
  - Time points (SystemTime, SteadyTime) are Int values in microseconds since
    the epoch of the respective clock.  A default-constructed time point is the
    epoch, value 0; the C++ code uses that value to encode an absent hint.
    Since the embedding works directly in microseconds, duration_cast to
    microseconds is the identity.
  - Clock reads (SystemClock.now, SteadyClock.now) are supplied through a
    ClockEnv record fixing the current reading of each clock.
  - The atomic flag and per-span mutex serialize operations on one span, so an
    execution is modelled as a sequence of operations applied to an explicit
    state.
  - 64-bit identifiers are Nat values reduced mod 2 to the 64.
-/

namespace ZipkinOT

/-- Current readings of the two clocks at the moment a clock call is made:
systemNow is SystemClock.now and steadyNow is SteadyClock.now, both in
microseconds since the epoch of the respective clock. -/
structure ClockEnv where
  systemNow : Int
  steadyNow : Int
deriving DecidableEq

/-- Default-constructed SystemTime, i.e. the wall-clock epoch. -/
def SystemTimeEpoch : Int := 0

/-- Default-constructed SteadyTime, i.e. the monotonic-clock epoch. -/
def SteadyTimeEpoch : Int := 0

/-- Modelled from the spec: the opentracing convert_time_point helper
(external library, not under src/) maps a steady time point to a system time
point through the current offset of the two clocks. -/
def convertToSystem (env : ClockEnv) (t : Int) : Int :=
  env.systemNow + (t - env.steadyNow)

/-- Modelled from the spec: inverse conversion, system time point to steady
time point through the current offset of the two clocks. -/
def convertToSteady (env : ClockEnv) (t : Int) : Int :=
  env.steadyNow + (t - env.systemNow)

/-- Embedding of computeStartTimestamps (opentracing.cc lines 19 to 38):
if neither the system nor steady timestamp is set, read both clocks;
otherwise use the set timestamp to initialize the other. -/
def computeStartTimestamps (env : ClockEnv)
    (start_system_timestamp : Int) (start_steady_timestamp : Int) : Int × Int :=
  if start_system_timestamp = SystemTimeEpoch ∧
      start_steady_timestamp = SteadyTimeEpoch then
    (env.systemNow, env.steadyNow)
  else if start_system_timestamp = SystemTimeEpoch then
    (convertToSystem env start_steady_timestamp, start_steady_timestamp)
  else if start_steady_timestamp = SteadyTimeEpoch then
    (start_system_timestamp, convertToSteady env start_system_timestamp)
  else
    (start_system_timestamp, start_steady_timestamp)

/-- Spec-worded reconciliation policy of section 4.2, over genuinely optional
hints, for comparison with computeStartTimestamps. -/
def reconcileSpec (env : ClockEnv) : Option Int → Option Int → Int × Int
  | none, none => (env.systemNow, env.steadyNow)
  | none, some m => (convertToSystem env m, m)
  | some w, none => (w, convertToSteady env w)
  | some w, some m => (w, m)

/-- Encoding of an optional hint as a raw time point: an absent hint is the
default-constructed time point, i.e. the epoch. -/
def encodeHint : Option Int → Int
  | none => 0
  | some t => t

/-- Decoding of a raw time point as an optional hint: the epoch value decodes
as an absent hint. -/
def decodeHint (t : Int) : Option Int :=
  if t = 0 then none else some t

/-- Tag values of the generic tracing API: a variant of boolean, integer,
floating point or string.  A floating-point value is represented by its
canonical rendering, since no arithmetic is ever performed on tag values. -/
inductive OtValue where
  | boolValue : Bool → OtValue
  | intValue : Int → OtValue
  | doubleValue : String → OtValue
  | stringValue : String → OtValue
deriving DecidableEq

/-- Modelled from the spec: canonical string rendering of a tag value
(section 4.5; the conversion helper lives in utility.h, not under src/). -/
def valueToString : OtValue → String
  | .boolValue true => "true"
  | .boolValue false => "false"
  | .intValue n => toString n
  | .doubleValue r => r
  | .stringValue s => s

/-- Endpoint identifying where a span or annotation originated: service name
plus network address. -/
structure Endpoint where
  service_name : String
  address : String
deriving DecidableEq

/-- Binary annot record of zipkin core: key, string value and an optional
endpoint. -/
structure BinaryAnnot where
  key : String
  value : String
  endpoint : Option Endpoint
deriving DecidableEq

/-- Modelled from the spec: toBinaryAnnotation of utility.h (not under src/)
converts one tag into a canonical string-valued binary annot for that key
(section 4.5).  The endpoint attached downstream by zipkin core is outside the
modelled fragment. -/
def toBinaryAnnot (key : String) (value : OtValue) : BinaryAnnot :=
  { key := key, value := valueToString value, endpoint := none }

/-- Modelled from the spec: the zipkin core Span record (zipkin_core_types,
not under src/): name, identifiers, wall-clock start timestamp in
microseconds, duration in microseconds (unset until finish) and the ordered
binary annot sequence.  reported_count counts how many times the completed
record was handed to the reporter. -/
structure Span where
  name : String := ""
  id : Nat := 0
  trace_id : Nat := 0
  parent_id : Option Nat := none
  timestamp : Int := 0
  duration : Option Int := none
  binary_annots : List BinaryAnnot := []
  reported_count : Nat := 0
deriving DecidableEq

/-- Modelled from the spec: Span.addBinaryAnnotation of zipkin core appends
one binary annot to the record sequence. -/
def Span.addBinaryAnnot (s : Span) (a : BinaryAnnot) : Span :=
  { s with binary_annots := s.binary_annots ++ [a] }

/-- Modelled from the spec: Span.finish of zipkin core hands the completed
record to the reporter collaborator (fire and forget). -/
def Span.finish (s : Span) : Span :=
  { s with reported_count := s.reported_count + 1 }

/-- Modelled from the spec: the zipkin core SpanContext, the immutable
identity triple built from a Span at construction. -/
structure SpanContext where
  trace_id : Nat
  id : Nat
  parent_id : Option Nat
deriving DecidableEq

/-- Construction of a SpanContext from the owning Span record. -/
def SpanContext.fromSpan (s : Span) : SpanContext :=
  { trace_id := s.trace_id, id := s.id, parent_id := s.parent_id }

/-- OtSpanContext (opentracing.cc lines 40 to 51): the recognized concrete
context kind, wrapping a zipkin SpanContext. -/
structure OtSpanContext where
  span_context : SpanContext
deriving DecidableEq

/-- Reference kinds of the generic tracing API. -/
inductive SpanReferenceType where
  | ChildOfRef
  | FollowsFromRef
deriving DecidableEq

/-- A context pointer supplied in a reference: either the recognized concrete
OtSpanContext kind (dynamic_cast succeeds) or a foreign implementation of the
generic context interface (dynamic_cast yields null). -/
inductive RefContext where
  | ot : OtSpanContext → RefContext
  | foreign : RefContext
deriving DecidableEq

/-- Embedding of findSpanContext (opentracing.cc lines 53 to 63): scan the
reference list in order and return the first context of the recognized
concrete kind, ignoring the reference kind of each entry. -/
def findSpanContext : List (SpanReferenceType × RefContext) → Option OtSpanContext
  | [] => none
  | (_, .ot c) :: _ => some c
  | (_, .foreign) :: rest => findSpanContext rest

/-- Modelled from the spec: RandomUtil.generateId of zipkin core (not under
src/) produces one fresh 64-bit identifier per call (section 4.1); the entropy
source is modelled as a deterministic stream consumed one position per call. -/
structure IdGen where
  stream : Nat → Nat
  next : Nat

/-- One draw from the identity generator: the fresh 64-bit identifier and the
advanced generator. -/
def IdGen.generateId (g : IdGen) : Nat × IdGen :=
  (g.stream g.next % 2 ^ 64, { g with next := g.next + 1 })

/-- Span-start options consumed by the adapter: ordered reference list,
ordered initial tag list, optional start timestamps (epoch encodes absent). -/
structure StartSpanOptions where
  references : List (SpanReferenceType × RefContext) := []
  tags : List (String × OtValue) := []
  start_system_timestamp : Int := SystemTimeEpoch
  start_steady_timestamp : Int := SteadyTimeEpoch
deriving DecidableEq

/-- Span-finish options: optional explicit monotonic finish timestamp (epoch
encodes absent). -/
structure FinishSpanOptions where
  finish_steady_timestamp : Int := SteadyTimeEpoch
deriving DecidableEq

/-- Upsert into the tag mapping, mirroring indexed assignment into
std unordered_map: replace the value of an existing key in place, else append
the new entry. -/
def upsert : List (String × OtValue) → String → OtValue → List (String × OtValue)
  | [], k, v => [(k, v)]
  | (k', v') :: rest, k, v =>
    if k' = k then (k, v) :: rest else (k', v') :: upsert rest k v

/-- State of one OtSpan (opentracing.cc lines 65 to 169): the immutable
context, the start steady timestamp, the finished flag, the tag mapping and
the owned span record.  The tracer handle only feeds the reporter and the
tracer accessor and carries no state of its own. -/
structure OtSpan where
  span_context : OtSpanContext
  start_steady_timestamp : Int
  is_finished : Bool
  tags : List (String × OtValue)
  span : Span
deriving DecidableEq

/-- Embedding of the OtSpan constructor (opentracing.cc lines 67 to 95):
set the fresh span id; resolve the parent among the references, inheriting
trace id and parent id from the first recognized context, else generate a
fresh trace id; reconcile the start timestamps; seed the tag mapping from the
options in order; build the immutable context from the span record. -/
def OtSpan.construct (gen : IdGen) (env : ClockEnv) (span0 : Span)
    (options : StartSpanOptions) : OtSpan × IdGen :=
  let idDraw := gen.generateId
  let span1 : Span := { span0 with id := idDraw.1 }
  let afterIds : Span × IdGen :=
    match findSpanContext options.references with
    | some pc =>
      ({ span1 with
          trace_id := pc.span_context.trace_id,
          parent_id := some pc.span_context.id }, idDraw.2)
    | none =>
      let traceDraw := idDraw.2.generateId
      ({ span1 with trace_id := traceDraw.1 }, traceDraw.2)
  let ts := computeStartTimestamps env
    options.start_system_timestamp options.start_steady_timestamp
  let span3 : Span := { afterIds.1 with timestamp := ts.1 }
  let seededTags := options.tags.foldl (fun m kv => upsert m kv.1 kv.2) []
  ({ span_context := { span_context := SpanContext.fromSpan span3 },
     start_steady_timestamp := ts.2,
     is_finished := false,
     tags := seededTags,
     span := span3 }, afterIds.2)

/-- Embedding of OtSpan.FinishWithOptions (opentracing.cc lines 102 to 127),
allocation-success path: if the finished flag is already set, return
immediately; otherwise set it, determine the finish steady time (hint if set,
else the steady clock), store the duration, convert every accumulated tag to
a binary annot appended to the record, and hand the record to the reporter. -/
def OtSpan.FinishWithOptions (st : OtSpan) (env : ClockEnv)
    (options : FinishSpanOptions) : OtSpan :=
  if st.is_finished then st
  else
    let finish_timestamp :=
      if options.finish_steady_timestamp = SteadyTimeEpoch then env.steadyNow
      else options.finish_steady_timestamp
    let dur := finish_timestamp - st.start_steady_timestamp
    let span1 : Span := { st.span with duration := some dur }
    let span2 := st.tags.foldl
      (fun sp tag => sp.addBinaryAnnot (toBinaryAnnot tag.1 tag.2)) span1
    { st with is_finished := true, span := span2.finish }

/-- Embedding of the OtSpan destructor (opentracing.cc lines 97 to 100):
finish with default options when the span is still active. -/
def OtSpan.destruct (st : OtSpan) (env : ClockEnv) : OtSpan :=
  if st.is_finished then st
  else st.FinishWithOptions env {}

/-- Embedding of OtSpan.SetTag (opentracing.cc lines 136 to 141),
allocation-success path: upsert the pair into the tag mapping under the
mutation lock; the span record is not touched. -/
def OtSpan.SetTag (st : OtSpan) (key : String) (value : OtValue) : OtSpan :=
  { st with tags := upsert st.tags key value }

/-- Embedding of OtSpan.SetOperationName (opentracing.cc lines 129 to 134),
allocation-success path: overwrite the record name under the mutation lock. -/
def OtSpan.SetOperationName (st : OtSpan) (name : String) : OtSpan :=
  { st with span := { st.span with name := name } }

/-- A sequence of SetTag calls applied in order. -/
def setTags (st : OtSpan) (ops : List (String × OtValue)) : OtSpan :=
  ops.foldl (fun s kv => s.SetTag kv.1 kv.2) st

/-- The bad_alloc condition a mutating call may run into. -/
inductive BadAlloc where
  | badAlloc
deriving DecidableEq

/-- Catch clause of the noexcept mutating members: a body that threw
bad_alloc is caught and nothing is done, keeping the state reached at the
throw point; no error is surfaced to the caller in either case. -/
def catchBadAlloc (body : Except OtSpan OtSpan) : OtSpan × Option BadAlloc :=
  match body with
  | .ok s => (s, none)
  | .error s => (s, none)

/-- Body of SetTag with an explicit allocation outcome: on out-of-memory the
upsert does not commit and bad_alloc propagates to the catch clause. -/
def OtSpan.setTagBody (st : OtSpan) (oom : Bool) (key : String)
    (value : OtValue) : Except OtSpan OtSpan :=
  if oom then .error st else .ok (st.SetTag key value)

/-- OtSpan.SetTag as seen by the caller, allocation outcome included
(opentracing.cc lines 136 to 141): the try body under the mutation lock,
bad_alloc swallowed by the catch clause. -/
def OtSpan.SetTagCaught (st : OtSpan) (oom : Bool) (key : String)
    (value : OtValue) : OtSpan × Option BadAlloc :=
  catchBadAlloc (st.setTagBody oom key value)

/-- Body of SetOperationName with an explicit allocation outcome. -/
def OtSpan.setOperationNameBody (st : OtSpan) (oom : Bool) (name : String) :
    Except OtSpan OtSpan :=
  if oom then .error st else .ok (st.SetOperationName name)

/-- OtSpan.SetOperationName as seen by the caller, allocation outcome
included (opentracing.cc lines 129 to 134). -/
def OtSpan.SetOperationNameCaught (st : OtSpan) (oom : Bool) (name : String) :
    OtSpan × Option BadAlloc :=
  catchBadAlloc (st.setOperationNameBody oom name)

/-- Body of FinishWithOptions with an explicit allocation outcome: the atomic
exchange of the finished flag happens before any allocation, so a bad_alloc
thrown while converting tags leaves the flag set. -/
def OtSpan.finishBody (st : OtSpan) (env : ClockEnv)
    (options : FinishSpanOptions) (oom : Bool) : Except OtSpan OtSpan :=
  if st.is_finished then .ok st
  else if oom then .error { st with is_finished := true }
  else .ok (st.FinishWithOptions env options)

/-- OtSpan.FinishWithOptions as seen by the caller, allocation outcome
included (opentracing.cc lines 102 to 127): the try body with the bad_alloc
catch clause doing nothing. -/
def OtSpan.FinishWithOptionsCaught (st : OtSpan) (env : ClockEnv)
    (options : FinishSpanOptions) (oom : Bool) : OtSpan × Option BadAlloc :=
  catchBadAlloc (st.finishBody env options oom)

/-- One finish-path event applied to a span: an explicit FinishWithOptions
call, or destruction of the handle (which finishes when still active). -/
inductive FinishEvent where
  | finishCall : ClockEnv → FinishSpanOptions → FinishEvent
  | destructor : ClockEnv → FinishEvent

/-- Application of one finish-path event to the span state. -/
def applyFinishEvent (st : OtSpan) : FinishEvent → OtSpan
  | .finishCall env options => st.FinishWithOptions env options
  | .destructor env => st.destruct env

/-- Application of a sequence of finish-path events, in order. -/
def applyFinishEvents (st : OtSpan) (evs : List FinishEvent) : OtSpan :=
  evs.foldl applyFinishEvent st

/-- The OtTracer adapter (opentracing.cc lines 171 to 229): service identity
of the wrapped zipkin tracer.  The reporter handle carries no state relevant
to the claims. -/
structure OtTracer where
  service_name : String
  address : String
deriving DecidableEq

/-- The fixed service-identity binary annot the adapter emits up front:
key lc, the service name as value, tagged with the local endpoint
(opentracing.cc lines 185 to 189). -/
def OtTracer.lcAnnot (t : OtTracer) : BinaryAnnot :=
  { key := "lc",
    value := t.service_name,
    endpoint := some { service_name := t.service_name, address := t.address } }

/-- Embedding of OtTracer.StartSpanWithOptions (opentracing.cc lines 176 to
193): build a fresh zipkin span named after the operation, append the
service-identity binary annot, then run the OtSpan constructor. -/
def OtTracer.StartSpanWithOptions (t : OtTracer) (gen : IdGen) (env : ClockEnv)
    (operation_name : String) (options : StartSpanOptions) : OtSpan × IdGen :=
  let span0 : Span := { name := operation_name }
  let span1 := span0.addBinaryAnnot t.lcAnnot
  OtSpan.construct gen env span1 options

/-- Last value written for a key in an ordered write sequence. -/
def lastWrite : List (String × OtValue) → String → Option OtValue
  | [], _ => none
  | (k', v) :: rest, k =>
    match lastWrite rest k with
    | some w => some w
    | none => if k' = k then some v else none

/-- The tag mapping reached from an initial mapping by a sequence of upserts
applied in order. -/
def tagsAfter (init : List (String × OtValue))
    (writes : List (String × OtValue)) : List (String × OtValue) :=
  writes.foldl (fun m kv => upsert m kv.1 kv.2) init

/-- The tag mapping has at most one entry per key. -/
def KeysUnique (m : List (String × OtValue)) : Prop :=
  m.Pairwise (fun a b => a.1 ≠ b.1)

/-- Concrete identity generator used to evaluate the development on concrete
inputs. -/
def sampleGen : IdGen :=
  { stream := fun n => 1000 + n, next := 0 }

/-- Concrete clock readings used to evaluate the development on concrete
inputs. -/
def sampleEnv : ClockEnv :=
  { systemNow := 5000000, steadyNow := 3000000 }

/-- A concrete recognized span context. -/
def sampleCtx : OtSpanContext :=
  { span_context := { trace_id := 7, id := 9, parent_id := none } }

/-- Concrete start options with a mixed reference list: a foreign context,
then the recognized one, then another foreign one. -/
def sampleRefOptions : StartSpanOptions :=
  { references :=
      [(SpanReferenceType.FollowsFromRef, RefContext.foreign),
       (SpanReferenceType.ChildOfRef, RefContext.ot sampleCtx),
       (SpanReferenceType.ChildOfRef, RefContext.foreign)] }

/-- A concrete freshly constructed span state with default options. -/
def sampleSpanState : OtSpan :=
  (OtSpan.construct sampleGen sampleEnv {} {}).1

/-- A concrete explicit finish event with default options. -/
def sampleFinishEv : FinishEvent :=
  FinishEvent.finishCall sampleEnv {}

/-- Concrete start options carrying one initial tag. -/
def sampleTagOptions : StartSpanOptions :=
  { tags := [("component", OtValue.intValue 1)] }

/-- A concrete tracer adapter identity. -/
def sampleTracer : OtTracer :=
  { service_name := "my_service", address := "127.0.0.1" }

lemma mem_upsert (m : List (String × OtValue)) (k : String) (v : OtValue) :
    ∀ p ∈ upsert m k v, p = (k, v) ∨ p ∈ m := by
  induction m with
  | nil => simp [upsert]
  | cons hd rest ih =>
    obtain ⟨k', v'⟩ := hd
    by_cases hk : k' = k
    · intro p hp
      simp only [upsert, hk, if_true] at hp
      rcases List.mem_cons.mp hp with h | h
      · exact Or.inl h
      · exact Or.inr (List.mem_cons_of_mem _ h)
    · intro p hp
      simp only [upsert, hk, if_false] at hp
      rcases List.mem_cons.mp hp with h | h
      · exact Or.inr (h ▸ List.mem_cons_self _ _)
      · rcases ih p h with h' | h'
        · exact Or.inl h'
        · exact Or.inr (List.mem_cons_of_mem _ h')

lemma upsert_keysUnique (m : List (String × OtValue)) (k : String)
    (v : OtValue) (h : KeysUnique m) : KeysUnique (upsert m k v) := by
  induction m with
  | nil => simp [upsert, KeysUnique]
  | cons hd rest ih =>
    obtain ⟨k', v'⟩ := hd
    rw [KeysUnique, List.pairwise_cons] at h
    by_cases hk : k' = k
    · subst hk
      simp only [upsert, if_true]
      rw [KeysUnique, List.pairwise_cons]
      exact ⟨h.1, h.2⟩
    · simp only [upsert, hk, if_false]
      rw [KeysUnique, List.pairwise_cons]
      refine ⟨fun b hb => ?_, ih h.2⟩
      rcases mem_upsert rest k v b hb with hb' | hb'
      · subst hb'
        exact hk
      · exact h.1 b hb'

lemma filter_eq_nil_of_keys_ne (m : List (String × OtValue)) (k : String)
    (h : ∀ p ∈ m, p.1 ≠ k) : m.filter (fun t => t.1 = k) = [] := by
  induction m with
  | nil => rfl
  | cons hd rest ih =>
    have hd_ne := h hd (List.mem_cons_self _ _)
    rw [List.filter_cons]
    simp only [hd_ne, decide_False, if_false]
    exact ih fun p hp => h p (List.mem_cons_of_mem _ hp)

lemma filter_upsert_self (m : List (String × OtValue)) (k : String)
    (v : OtValue) (h : KeysUnique m) :
    (upsert m k v).filter (fun t => t.1 = k) = [(k, v)] := by
  induction m with
  | nil => simp [upsert]
  | cons hd rest ih =>
    obtain ⟨k', v'⟩ := hd
    rw [KeysUnique, List.pairwise_cons] at h
    by_cases hk : k' = k
    · subst hk
      simp only [upsert, if_true]
      rw [List.filter_cons]
      simp only [decide_True, if_true]
      rw [filter_eq_nil_of_keys_ne rest k' fun p hp => (h.1 p hp).symm]
    · simp only [upsert, hk, if_false]
      rw [List.filter_cons]
      simp only [hk, decide_False, if_false]
      exact ih h.2

lemma filter_upsert_other (m : List (String × OtValue)) (k : String)
    (v : OtValue) (k'' : String) (hne : k ≠ k'') :
    (upsert m k v).filter (fun t => t.1 = k'')
      = m.filter (fun t => t.1 = k'') := by
  induction m with
  | nil => simp [upsert, hne]
  | cons hd rest ih =>
    obtain ⟨k', v'⟩ := hd
    by_cases hk : k' = k
    · subst hk
      simp only [upsert, if_true]
      rw [List.filter_cons, List.filter_cons]
      simp [hne]
    · simp only [upsert, hk, if_false]
      rw [List.filter_cons, List.filter_cons]
      by_cases hk'' : k' = k''
      · simp [hk'', ih]
      · simp [hk'', ih]

lemma tagsAfter_keysUnique (ws : List (String × OtValue)) :
    ∀ acc, KeysUnique acc → KeysUnique (tagsAfter acc ws) := by
  induction ws with
  | nil => exact fun acc h => h
  | cons w rest ih =>
    intro acc h
    exact ih (upsert acc w.1 w.2) (upsert_keysUnique acc w.1 w.2 h)

lemma tagsAfter_filter (ws : List (String × OtValue)) :
    ∀ acc, KeysUnique acc → ∀ k,
      (tagsAfter acc ws).filter (fun t => t.1 = k)
        = (match lastWrite ws k with
            | some v => [(k, v)]
            | none => acc.filter (fun t => t.1 = k)) := by
  induction ws with
  | nil => intro acc _ k; rfl
  | cons w rest ih =>
    intro acc hacc k
    obtain ⟨k', v⟩ := w
    have step : tagsAfter acc ((k', v) :: rest) = tagsAfter (upsert acc k' v) rest := rfl
    rw [step, ih (upsert acc k' v) (upsert_keysUnique acc k' v hacc) k]
    cases hrest : lastWrite rest k with
    | some w' => simp [lastWrite, hrest]
    | none =>
      by_cases hk : k' = k
      · subst hk
        simp only [lastWrite, hrest]
        exact filter_upsert_self acc k' v hacc
      · simp only [lastWrite, hrest, hk, if_false]
        exact filter_upsert_other acc k' v k hk

lemma tagsAfter_append (init a b : List (String × OtValue)) :
    tagsAfter init (a ++ b) = tagsAfter (tagsAfter init a) b := by
  simp [tagsAfter, List.foldl_append]

lemma construct_tags (gen : IdGen) (env : ClockEnv) (span0 : Span)
    (options : StartSpanOptions) :
    (OtSpan.construct gen env span0 options).1.tags = tagsAfter [] options.tags := rfl

lemma setTags_tags (ops : List (String × OtValue)) :
    ∀ st : OtSpan, (setTags st ops).tags = tagsAfter st.tags ops := by
  induction ops with
  | nil => intro st; rfl
  | cons op rest ih =>
    intro st
    have step : setTags st (op :: rest) = setTags (st.SetTag op.1 op.2) rest := rfl
    rw [step, ih]
    rfl

lemma setTags_span (ops : List (String × OtValue)) :
    ∀ st : OtSpan, (setTags st ops).span = st.span := by
  induction ops with
  | nil => intro st; rfl
  | cons op rest ih =>
    intro st
    have step : setTags st (op :: rest) = setTags (st.SetTag op.1 op.2) rest := rfl
    rw [step, ih]
    rfl

lemma setTags_is_finished (ops : List (String × OtValue)) :
    ∀ st : OtSpan, (setTags st ops).is_finished = st.is_finished := by
  induction ops with
  | nil => intro st; rfl
  | cons op rest ih =>
    intro st
    have step : setTags st (op :: rest) = setTags (st.SetTag op.1 op.2) rest := rfl
    rw [step, ih]
    rfl

lemma findSpanContext_eq_none (refs : List (SpanReferenceType × RefContext))
    (h : ∀ r ∈ refs, r.2 = RefContext.foreign) :
    findSpanContext refs = none := by
  induction refs with
  | nil => rfl
  | cons r rest ih =>
    obtain ⟨k, ctx⟩ := r
    have hr := h (k, ctx) (List.mem_cons_self _ _)
    simp only at hr
    subst hr
    exact ih fun r hm => h r (List.mem_cons_of_mem _ hm)

lemma findSpanContext_first_recognized
    (pre post : List (SpanReferenceType × RefContext))
    (k : SpanReferenceType) (c : OtSpanContext)
    (h : ∀ r ∈ pre, r.2 = RefContext.foreign) :
    findSpanContext (pre ++ (k, RefContext.ot c) :: post) = some c := by
  induction pre with
  | nil => rfl
  | cons r rest ih =>
    obtain ⟨k', ctx⟩ := r
    have hr := h (k', ctx) (List.mem_cons_self _ _)
    simp only at hr
    subst hr
    simpa [findSpanContext] using ih fun r hm => h r (List.mem_cons_of_mem _ hm)

lemma foldl_addBinaryAnnot (sp : Span) (l : List (String × OtValue)) :
    l.foldl (fun sp tag => sp.addBinaryAnnot (toBinaryAnnot tag.1 tag.2)) sp
      = { sp with binary_annots :=
            sp.binary_annots ++ l.map (fun t => toBinaryAnnot t.1 t.2) } := by
  induction l generalizing sp with
  | nil => simp
  | cons t rest ih =>
    rw [List.foldl_cons, ih]
    simp [Span.addBinaryAnnot, List.append_assoc]

lemma FinishWithOptions_of_finished (st : OtSpan) (env : ClockEnv)
    (options : FinishSpanOptions) (h : st.is_finished = true) :
    st.FinishWithOptions env options = st := by
  simp [OtSpan.FinishWithOptions, h]

lemma destruct_of_finished (st : OtSpan) (env : ClockEnv)
    (h : st.is_finished = true) : st.destruct env = st := by
  simp [OtSpan.destruct, h]

lemma FinishWithOptions_is_finished (st : OtSpan) (env : ClockEnv)
    (options : FinishSpanOptions) :
    (st.FinishWithOptions env options).is_finished = true := by
  by_cases h : st.is_finished
  · simp [OtSpan.FinishWithOptions, h]
  · simp [OtSpan.FinishWithOptions, h]

lemma destruct_is_finished (st : OtSpan) (env : ClockEnv) :
    (st.destruct env).is_finished = true := by
  by_cases h : st.is_finished
  · simp [OtSpan.destruct, h]
  · simp only [OtSpan.destruct, h, if_false]
    exact FinishWithOptions_is_finished _ _ _

lemma applyFinishEvent_of_finished (st : OtSpan) (ev : FinishEvent)
    (h : st.is_finished = true) : applyFinishEvent st ev = st := by
  cases ev with
  | finishCall env options => exact FinishWithOptions_of_finished st env options h
  | destructor env => exact destruct_of_finished st env h

lemma applyFinishEvent_is_finished (st : OtSpan) (ev : FinishEvent) :
    (applyFinishEvent st ev).is_finished = true := by
  cases ev with
  | finishCall env options => exact FinishWithOptions_is_finished st env options
  | destructor env => exact destruct_is_finished st env

lemma applyFinishEvents_of_finished (st : OtSpan) (evs : List FinishEvent)
    (h : st.is_finished = true) : applyFinishEvents st evs = st := by
  induction evs with
  | nil => rfl
  | cons ev rest ih =>
    simp only [applyFinishEvents, List.foldl_cons]
    rw [applyFinishEvent_of_finished st ev h]
    exact ih

lemma applyFinishEvents_cons (st : OtSpan) (ev : FinishEvent)
    (evs : List FinishEvent) :
    applyFinishEvents st (ev :: evs) = applyFinishEvents (applyFinishEvent st ev) evs := rfl

lemma construct_of_found (gen : IdGen) (env : ClockEnv) (span0 : Span)
    (options : StartSpanOptions) (c : OtSpanContext)
    (h : findSpanContext options.references = some c) :
    (OtSpan.construct gen env span0 options).1.span.trace_id
        = c.span_context.trace_id ∧
      (OtSpan.construct gen env span0 options).1.span.parent_id
        = some c.span_context.id := by
  simp [OtSpan.construct, h]

lemma construct_of_none (gen : IdGen) (env : ClockEnv) (span0 : Span)
    (options : StartSpanOptions)
    (h : findSpanContext options.references = none) :
    (OtSpan.construct gen env span0 options).1.span.trace_id
        = (IdGen.generateId (IdGen.generateId gen).2).1 ∧
      (OtSpan.construct gen env span0 options).1.span.parent_id
        = span0.parent_id := by
  simp [OtSpan.construct, h]

lemma construct_span_id (gen : IdGen) (env : ClockEnv) (span0 : Span)
    (options : StartSpanOptions) :
    (OtSpan.construct gen env span0 options).1.span.id = (IdGen.generateId gen).1 := by
  cases h : findSpanContext options.references <;> simp [OtSpan.construct, h]

lemma construct_span_annots (gen : IdGen) (env : ClockEnv) (span0 : Span)
    (options : StartSpanOptions) :
    (OtSpan.construct gen env span0 options).1.span.binary_annots
      = span0.binary_annots := by
  cases h : findSpanContext options.references <;> simp [OtSpan.construct, h]

lemma construct_is_finished (gen : IdGen) (env : ClockEnv) (span0 : Span)
    (options : StartSpanOptions) :
    (OtSpan.construct gen env span0 options).1.is_finished = false := rfl

lemma FinishWithOptions_of_active (st : OtSpan) (env : ClockEnv)
    (options : FinishSpanOptions) (h : st.is_finished = false) :
    st.FinishWithOptions env options =
      { st with
          is_finished := true,
          span :=
            { st.span with
                duration := some
                  ((if options.finish_steady_timestamp = SteadyTimeEpoch
                      then env.steadyNow
                      else options.finish_steady_timestamp)
                    - st.start_steady_timestamp),
                binary_annots := st.span.binary_annots
                  ++ st.tags.map (fun t => toBinaryAnnot t.1 t.2),
                reported_count := st.span.reported_count + 1 } } := by
  simp only [OtSpan.FinishWithOptions, h, Bool.false_eq_true, if_false,
    foldl_addBinaryAnnot, Span.finish]

lemma toBinaryAnnot_key (k : String) (v : OtValue) :
    (toBinaryAnnot k v).key = k := rfl

lemma filter_map_toBinaryAnnot (l : List (String × OtValue)) (k : String) :
    (l.map (fun t => toBinaryAnnot t.1 t.2)).filter (fun a => a.key = k)
      = (l.filter (fun t => t.1 = k)).map (fun t => toBinaryAnnot t.1 t.2) := by
  induction l with
  | nil => rfl
  | cons t rest ih =>
    rw [List.map_cons, List.filter_cons, List.filter_cons]
    by_cases hk : t.1 = k
    · simp [toBinaryAnnot_key, hk, ih]
    · simp [toBinaryAnnot_key, hk, ih]

/-- C1: for every span, any sequence of finish calls and/or destruction
starting from an active state results in exactly one recorded duration and
exactly one record handed to the reporter; the whole sequence is equivalent
to its first event, every later event being a pure no-op on an already
finished span. -/
theorem C1_finish_exactly_once (st : OtSpan) (ev : FinishEvent)
    (evs : List FinishEvent)
    (hactive : st.is_finished = false)
    (hrep : st.span.reported_count = 0)
    (_hdur : st.span.duration = none) :
    applyFinishEvents st (ev :: evs) = applyFinishEvent st ev ∧
    (applyFinishEvent st ev).is_finished = true ∧
    (applyFinishEvent st ev).span.reported_count = 1 ∧
    (applyFinishEvent st ev).span.duration.isSome = true := by
  refine ⟨?_, applyFinishEvent_is_finished st ev, ?_⟩
  · rw [applyFinishEvents_cons]
    exact applyFinishEvents_of_finished _ evs (applyFinishEvent_is_finished st ev)
  · have hfin : ∀ env options,
        (st.FinishWithOptions env options).span.reported_count = 1 ∧
        (st.FinishWithOptions env options).span.duration.isSome = true := by
      intro env options
      rw [FinishWithOptions_of_active st env options hactive]
      simp [hrep]
    cases ev with
    | finishCall env options => exact hfin env options
    | destructor env =>
      simp only [applyFinishEvent, OtSpan.destruct, hactive, Bool.false_eq_true,
        if_false]
      exact hfin env {}

/-- Witness for C1 at a concrete freshly constructed span, one explicit
finish followed by destruction. -/
theorem C1_witness :
    sampleSpanState.is_finished = false ∧
    sampleSpanState.span.reported_count = 0 ∧
    sampleSpanState.span.duration = none ∧
    (applyFinishEvents sampleSpanState
        (sampleFinishEv :: [FinishEvent.destructor sampleEnv])
        = applyFinishEvent sampleSpanState sampleFinishEv ∧
      (applyFinishEvent sampleSpanState sampleFinishEv).is_finished = true ∧
      (applyFinishEvent sampleSpanState sampleFinishEv).span.reported_count = 1 ∧
      (applyFinishEvent sampleSpanState sampleFinishEv).span.duration.isSome = true) :=
  ⟨rfl, rfl, rfl,
    C1_finish_exactly_once sampleSpanState sampleFinishEv
      [FinishEvent.destructor sampleEnv] rfl rfl rfl⟩

/-- C2: for every span created with a reference list whose first recognized
context is c, the constructed span inherits trace_id from c and sets
parent_id to the span id of c, regardless of how many unrecognized
references precede or follow it and regardless of the reference kinds. -/
theorem C2_parent_from_first_recognized (gen : IdGen) (env : ClockEnv)
    (span0 : Span) (options : StartSpanOptions)
    (pre post : List (SpanReferenceType × RefContext))
    (k : SpanReferenceType) (c : OtSpanContext)
    (hpre : ∀ r ∈ pre, r.2 = RefContext.foreign)
    (hrefs : options.references = pre ++ (k, RefContext.ot c) :: post) :
    (OtSpan.construct gen env span0 options).1.span.trace_id
        = c.span_context.trace_id ∧
      (OtSpan.construct gen env span0 options).1.span.parent_id
        = some c.span_context.id := by
  have h : findSpanContext options.references = some c := by
    rw [hrefs]
    exact findSpanContext_first_recognized pre post k c hpre
  exact construct_of_found gen env span0 options c h

/-- Witness for C2 at a concrete reference list with a foreign entry before
and after the recognized context. -/
theorem C2_witness :
    (∀ r ∈ [((SpanReferenceType.FollowsFromRef : SpanReferenceType),
        RefContext.foreign)], r.2 = RefContext.foreign) ∧
    sampleRefOptions.references
      = [(SpanReferenceType.FollowsFromRef, RefContext.foreign)]
        ++ (SpanReferenceType.ChildOfRef, RefContext.ot sampleCtx)
          :: [(SpanReferenceType.ChildOfRef, RefContext.foreign)] ∧
    ((OtSpan.construct sampleGen sampleEnv {} sampleRefOptions).1.span.trace_id
        = sampleCtx.span_context.trace_id ∧
      (OtSpan.construct sampleGen sampleEnv {} sampleRefOptions).1.span.parent_id
        = some sampleCtx.span_context.id) :=
  ⟨by decide, rfl,
    C2_parent_from_first_recognized sampleGen sampleEnv {} sampleRefOptions
      [(SpanReferenceType.FollowsFromRef, RefContext.foreign)]
      [(SpanReferenceType.ChildOfRef, RefContext.foreign)]
      SpanReferenceType.ChildOfRef sampleCtx (by decide) rfl⟩

/-- C3: for every span created with a reference list containing no
recognized context (in particular an empty one), the constructed span is a
trace root: its trace_id is the next fresh output of the identity generator
after the span id draw, and its parent_id stays absent. -/
theorem C3_root_fresh_trace (gen : IdGen) (env : ClockEnv) (span0 : Span)
    (options : StartSpanOptions)
    (hrefs : ∀ r ∈ options.references, r.2 = RefContext.foreign)
    (hparent : span0.parent_id = none) :
    (OtSpan.construct gen env span0 options).1.span.trace_id
        = (IdGen.generateId (IdGen.generateId gen).2).1 ∧
      (OtSpan.construct gen env span0 options).1.span.parent_id = none := by
  have h := findSpanContext_eq_none options.references hrefs
  have hc := construct_of_none gen env span0 options h
  exact ⟨hc.1, hc.2.trans hparent⟩

/-- Witness for C3 at a concrete span constructed with an empty reference
list. -/
theorem C3_witness :
    (∀ r ∈ (({} : StartSpanOptions)).references, r.2 = RefContext.foreign) ∧
    (({} : Span)).parent_id = none ∧
    ((OtSpan.construct sampleGen sampleEnv {} {}).1.span.trace_id
        = (IdGen.generateId (IdGen.generateId sampleGen).2).1 ∧
      (OtSpan.construct sampleGen sampleEnv {} {}).1.span.parent_id = none) :=
  ⟨by decide, rfl,
    C3_root_fresh_trace sampleGen sampleEnv {} {} (by decide) rfl⟩

/-- C4: for every span construction the span id is the fresh output of the
identity generator, never copied from a supplied reference context: whenever
the fresh identifier differs from the span id of a referenced context, so
does the constructed span id. -/
theorem C4_span_id_fresh (gen : IdGen) (env : ClockEnv) (span0 : Span)
    (options : StartSpanOptions) :
    (OtSpan.construct gen env span0 options).1.span.id
        = (IdGen.generateId gen).1 ∧
      (∀ k c, (k, RefContext.ot c) ∈ options.references →
        (IdGen.generateId gen).1 ≠ c.span_context.id →
        (OtSpan.construct gen env span0 options).1.span.id
          ≠ c.span_context.id) := by
  have hid := construct_span_id gen env span0 options
  exact ⟨hid, fun k c _ hne => hid ▸ hne⟩

/-- Witness for C4 at a concrete reference list containing a recognized
context whose ids differ from the generated one. -/
theorem C4_witness :
    ((SpanReferenceType.ChildOfRef, RefContext.ot sampleCtx)
        ∈ sampleRefOptions.references) ∧
    (IdGen.generateId sampleGen).1 ≠ sampleCtx.span_context.id ∧
    (OtSpan.construct sampleGen sampleEnv {} sampleRefOptions).1.span.id
      ≠ sampleCtx.span_context.id :=
  ⟨by decide, by decide,
    (C4_span_id_fresh sampleGen sampleEnv {} sampleRefOptions).2
      SpanReferenceType.ChildOfRef sampleCtx (by decide) (by decide)⟩

/-- C5: timestamp reconciliation follows the four-branch policy of the spec:
over genuinely optional hints (encoded as epoch when absent, which is
faithful whenever the hint itself is not the epoch), computeStartTimestamps
agrees with the spec-worded reconciler in each of the four branches. -/
theorem C5_timestamp_policy (env : ClockEnv) (w m : Option Int)
    (hw : w ≠ some SystemTimeEpoch) (hm : m ≠ some SteadyTimeEpoch) :
    computeStartTimestamps env (encodeHint w) (encodeHint m)
      = reconcileSpec env w m := by
  cases w with
  | none =>
    cases m with
    | none => rfl
    | some tm =>
      have htm : tm ≠ 0 := fun hz => hm (by rw [hz]; rfl)
      simp [computeStartTimestamps, encodeHint, reconcileSpec,
        SystemTimeEpoch, SteadyTimeEpoch, htm]
  | some tw =>
    have htw : tw ≠ 0 := fun hz => hw (by rw [hz]; rfl)
    cases m with
    | none =>
      simp [computeStartTimestamps, encodeHint, reconcileSpec,
        SystemTimeEpoch, SteadyTimeEpoch, htw]
    | some tm =>
      have htm : tm ≠ 0 := fun hz => hm (by rw [hz]; rfl)
      simp [computeStartTimestamps, encodeHint, reconcileSpec,
        SystemTimeEpoch, SteadyTimeEpoch, htw, htm]

/-- Witness for C5 with only the wall hint present. -/
theorem C5_witness :
    ((some 42 : Option Int) ≠ some SystemTimeEpoch) ∧
    ((none : Option Int) ≠ some SteadyTimeEpoch) ∧
    computeStartTimestamps sampleEnv (encodeHint (some 42)) (encodeHint none)
      = reconcileSpec sampleEnv (some 42) none :=
  ⟨by decide, by decide,
    C5_timestamp_policy sampleEnv (some 42) none (by decide) (by decide)⟩

/-- C6: on the first effective finish, the finish steady time is the given
hint if set, else the current steady clock, and the stored duration is that
finish time minus the start steady timestamp; the finished flag transitions
to true and any further finish leaves the state unchanged. -/
theorem C6_finish_duration (st : OtSpan) (env : ClockEnv)
    (options : FinishSpanOptions) (h : st.is_finished = false) :
    (st.FinishWithOptions env options).span.duration
        = some ((if options.finish_steady_timestamp = SteadyTimeEpoch
                  then env.steadyNow
                  else options.finish_steady_timestamp)
                 - st.start_steady_timestamp) ∧
      (st.FinishWithOptions env options).is_finished = true ∧
      (∀ env2 options2,
        (st.FinishWithOptions env options).FinishWithOptions env2 options2
          = st.FinishWithOptions env options) := by
  refine ⟨?_, FinishWithOptions_is_finished st env options,
    fun env2 options2 => FinishWithOptions_of_finished _ env2 options2
      (FinishWithOptions_is_finished st env options)⟩
  rw [FinishWithOptions_of_active st env options h]

/-- Witness for C6 at a concrete span with an explicit finish hint. -/
theorem C6_witness :
    sampleSpanState.is_finished = false ∧
    (sampleSpanState.FinishWithOptions sampleEnv
        { finish_steady_timestamp := 3005000 }).span.duration
      = some ((if (3005000 : Int) = SteadyTimeEpoch then sampleEnv.steadyNow
                else 3005000)
               - sampleSpanState.start_steady_timestamp) :=
  ⟨rfl,
    (C6_finish_duration sampleSpanState sampleEnv
      { finish_steady_timestamp := 3005000 } rfl).1⟩

/-- C7: setting one tag key several times before finishing, through the
initial options and/or SetTag calls, leaves the span record untouched until
finish, and the finished record carries the tag annots appended after the
prior annots with exactly one annot for that key, holding the last value
written. -/
theorem C7_last_write_wins (gen : IdGen) (env : ClockEnv) (span0 : Span)
    (options : StartSpanOptions) (ops : List (String × OtValue))
    (env2 : ClockEnv) (fopts : FinishSpanOptions) (k : String) (v : OtValue)
    (hlast : lastWrite (options.tags ++ ops) k = some v) :
    (setTags (OtSpan.construct gen env span0 options).1 ops).span
        = (OtSpan.construct gen env span0 options).1.span ∧
      ((setTags (OtSpan.construct gen env span0 options).1 ops).FinishWithOptions
            env2 fopts).span.binary_annots
        = (OtSpan.construct gen env span0 options).1.span.binary_annots
          ++ (setTags (OtSpan.construct gen env span0 options).1 ops).tags.map
              (fun t => toBinaryAnnot t.1 t.2) ∧
      ((setTags (OtSpan.construct gen env span0 options).1 ops).tags.map
          (fun t => toBinaryAnnot t.1 t.2)).filter (fun a => a.key = k)
        = [toBinaryAnnot k v] := by
  have hspan := setTags_span ops (OtSpan.construct gen env span0 options).1
  have hfin :
      (setTags (OtSpan.construct gen env span0 options).1 ops).is_finished
        = false := by
    rw [setTags_is_finished]
    exact construct_is_finished gen env span0 options
  have htags :
      (setTags (OtSpan.construct gen env span0 options).1 ops).tags
        = tagsAfter [] (options.tags ++ ops) := by
    rw [setTags_tags, construct_tags, tagsAfter_append]
  refine ⟨hspan, ?_, ?_⟩
  · rw [FinishWithOptions_of_active _ env2 fopts hfin]
    simp [hspan]
  · rw [htags, filter_map_toBinaryAnnot,
      tagsAfter_filter (options.tags ++ ops) [] List.Pairwise.nil k, hlast]
    rfl

/-- Witness for C7: one key seeded in the options and overwritten by a later
SetTag call. -/
theorem C7_witness :
    lastWrite (sampleTagOptions.tags
        ++ [("component", OtValue.intValue 2),
            ("peer", OtValue.stringValue "db")]) "component"
      = some (OtValue.intValue 2) ∧
    ((setTags (OtSpan.construct sampleGen sampleEnv {} sampleTagOptions).1
          [("component", OtValue.intValue 2),
           ("peer", OtValue.stringValue "db")]).tags.map
        (fun t => toBinaryAnnot t.1 t.2)).filter
        (fun a => a.key = "component")
      = [toBinaryAnnot "component" (OtValue.intValue 2)] :=
  ⟨by decide,
    (C7_last_write_wins sampleGen sampleEnv {} sampleTagOptions
      [("component", OtValue.intValue 2), ("peer", OtValue.stringValue "db")]
      sampleEnv {} "component" (OtValue.intValue 2) (by decide)).2.2⟩

/-- C8: for every span created by the tracer adapter, however many tags are
set and whenever it is finished, the emitted record annot sequence starts
with the fixed service-identity annot (key lc, the service name, tagged with
the local endpoint) and all user-tag annots follow it. -/
theorem C8_service_identity_first (t : OtTracer) (gen : IdGen) (env : ClockEnv)
    (opname : String) (options : StartSpanOptions)
    (ops : List (String × OtValue)) (env2 : ClockEnv)
    (fopts : FinishSpanOptions) :
    ((setTags (t.StartSpanWithOptions gen env opname options).1 ops).FinishWithOptions
          env2 fopts).span.binary_annots
      = t.lcAnnot
        :: (setTags (t.StartSpanWithOptions gen env opname options).1 ops).tags.map
            (fun tg => toBinaryAnnot tg.1 tg.2) := by
  have hfin :
      (setTags (t.StartSpanWithOptions gen env opname options).1 ops).is_finished
        = false := by
    rw [setTags_is_finished]
    exact construct_is_finished gen env _ options
  have hannots :
      (setTags (t.StartSpanWithOptions gen env opname options).1 ops).span.binary_annots
        = [t.lcAnnot] := by
    rw [setTags_span]
    exact construct_span_annots gen env _ options
  rw [FinishWithOptions_of_active _ env2 fopts hfin]
  simp [hannots]

/-- C9: no error is ever surfaced by SetTag, SetOperationName or
FinishWithOptions, whatever the allocation outcome: the caller always gets a
normal return with no error component, and on allocation success the caught
calls agree with the plain operations. -/
theorem C9_oom_swallowed (st : OtSpan) (oom : Bool) (key : String)
    (value : OtValue) (name : String) (env : ClockEnv)
    (options : FinishSpanOptions) :
    (st.SetTagCaught oom key value).2 = none ∧
      (st.SetOperationNameCaught oom name).2 = none ∧
      (st.FinishWithOptionsCaught env options oom).2 = none ∧
      (st.SetTagCaught false key value).1 = st.SetTag key value ∧
      (st.SetOperationNameCaught false name).1 = st.SetOperationName name ∧
      (st.FinishWithOptionsCaught env options false).1
        = st.FinishWithOptions env options := by
  refine ⟨?_, ?_, ?_, rfl, rfl, ?_⟩
  · cases oom <;> rfl
  · cases oom <;> rfl
  · by_cases h : st.is_finished <;> cases oom <;>
      simp [OtSpan.FinishWithOptionsCaught, OtSpan.finishBody, catchBadAlloc, h]
  · by_cases h : st.is_finished
    · simp [OtSpan.FinishWithOptionsCaught, OtSpan.finishBody, catchBadAlloc, h,
        FinishWithOptions_of_finished st env options h]
    · simp [OtSpan.FinishWithOptionsCaught, OtSpan.finishBody, catchBadAlloc, h]

/-- C10: a hint whose value is exactly the clock epoch is indistinguishable
from an absent hint: the start reconciler treats an epoch-valued wall or
steady hint as absent, and the finish path replaces an epoch-valued finish
hint by the current steady clock reading. -/
theorem C10_epoch_hint_means_absent (env : ClockEnv) (w m : Int) (st : OtSpan)
    (h : st.is_finished = false) :
    computeStartTimestamps env SystemTimeEpoch m
        = reconcileSpec env none (decodeHint m) ∧
      computeStartTimestamps env w SteadyTimeEpoch
        = reconcileSpec env (decodeHint w) none ∧
      (st.FinishWithOptions env
          { finish_steady_timestamp := SteadyTimeEpoch }).span.duration
        = some (env.steadyNow - st.start_steady_timestamp) ∧
      st.FinishWithOptions env { finish_steady_timestamp := SteadyTimeEpoch }
        = st.FinishWithOptions env { finish_steady_timestamp := env.steadyNow } := by
  refine ⟨?_, ?_, ?_, ?_⟩
  · by_cases hm : m = 0
    · simp [computeStartTimestamps, reconcileSpec, decodeHint,
        SystemTimeEpoch, SteadyTimeEpoch, hm]
    · simp [computeStartTimestamps, reconcileSpec, decodeHint,
        SystemTimeEpoch, SteadyTimeEpoch, hm]
  · by_cases hw : w = 0
    · simp [computeStartTimestamps, reconcileSpec, decodeHint,
        SystemTimeEpoch, SteadyTimeEpoch, hw]
    · simp [computeStartTimestamps, reconcileSpec, decodeHint,
        SystemTimeEpoch, SteadyTimeEpoch, hw]
  · rw [FinishWithOptions_of_active st env _ h]
    simp [SteadyTimeEpoch]
  · by_cases hz : env.steadyNow = SteadyTimeEpoch
    · rw [hz]
    · rw [FinishWithOptions_of_active st env _ h,
        FinishWithOptions_of_active st env _ h]
      simp [SteadyTimeEpoch, hz]

/-- Witness for C10 at a concrete span and concrete nonzero hints. -/
theorem C10_witness :
    sampleSpanState.is_finished = false ∧
    (computeStartTimestamps sampleEnv SystemTimeEpoch 55
        = reconcileSpec sampleEnv none (decodeHint 55) ∧
      computeStartTimestamps sampleEnv 42 SteadyTimeEpoch
        = reconcileSpec sampleEnv (decodeHint 42) none ∧
      (sampleSpanState.FinishWithOptions sampleEnv
          { finish_steady_timestamp := SteadyTimeEpoch }).span.duration
        = some (sampleEnv.steadyNow - sampleSpanState.start_steady_timestamp) ∧
      sampleSpanState.FinishWithOptions sampleEnv
          { finish_steady_timestamp := SteadyTimeEpoch }
        = sampleSpanState.FinishWithOptions sampleEnv
            { finish_steady_timestamp := sampleEnv.steadyNow }) :=
  ⟨rfl, C10_epoch_hint_means_absent sampleEnv 42 55 sampleSpanState rfl⟩
